import Mathlib

/-!
# Verification of the stress-hammer load-generation core

Shallow embedding of `src/http-client.ts` and `src/stress-tester.ts`:

* the request executor (`makeRequest`, `formatError`) over an abstract
  transport environment;
* the concurrency semaphore (`ConcurrencySemaphore`) as a labelled
  transition system on semaphore states;
* the five attack-pattern schedulers as pure functions producing a trace
  of dispatch/sleep events;
* the statistics aggregator (`calculateStats`, `calculatePercentile`);
* configuration validation (`validateConfig`, `validateRampUpConfig`).

JavaScript numbers that are used as counts/indices are modelled as `ℕ`,
raw (possibly negative) configuration fields as `ℤ`, and wall-clock
quantities produced by floating-point division as `ℚ`.  `Math.floor(x*0.8)`
and `Math.floor(x*0.3)` on naturals in the IEEE-754 safe range agree with
the exact rational floors `8*x/10` and `3*x/10`, which is how they are
modelled.  Optional (possibly `undefined`) fields are `Option`s, and JS
truthiness tests on them are modelled explicitly.
-/

namespace StressHammer

/-! ## Data model (`src/types.ts`) -/

/-- `RequestResult` from `src/types.ts`: the outcome record of one request.
Optional fields (`statusCode?`, `error?`, `responseSize?`) are `Option`s. -/
structure RequestResult where
  index : ℕ
  statusCode : Option ℕ := none
  responseTime : ℕ
  error : Option String := none
  responseSize : Option ℕ := none
  timestamp : ℕ := 0
deriving Repr, DecidableEq

/-! ## Transport environment

The core consumes one transport operation (axios).  A successful call
yields a status code (any code: the client sets `validateStatus: () => true`,
so axios resolves for every received response), a measured response time and
a serialized size; a transport-layer failure carries an optional Node reason
code (`error.code`), an optional message, and optionally an attached
response (the `error.response` branch of `formatError`). -/

structure TransportResponse where
  status : ℕ
  responseTime : ℕ
  size : ℕ
deriving Repr, DecidableEq

structure TransportFailure where
  code : Option String := none
  message : Option String := none
  responseStatus : Option (ℕ × String) := none
  responseTime : ℕ := 0
deriving Repr, DecidableEq

inductive TransportOutcome
  | ok (r : TransportResponse)
  | err (e : TransportFailure)
deriving Repr, DecidableEq

/-- Abstract deterministic transport: the outcome of the request with a given
index.  (Wall-clock timestamps are abstracted to `0`; no claim mentions
them.) -/
def Transport := ℕ → TransportOutcome

/-! ## Request executor (`src/http-client.ts`) -/

/-- JS truthiness of an optional string (`undefined` and `""` are falsy). -/
def strTruthy : Option String → Option String
  | none => none
  | some s => if s = "" then none else some s

/-- The `codeMessages` lookup table in `HttpClient.formatError`. -/
def codeMessages : String → Option String
  | "ECONNREFUSED" => some "Connection refused"
  | "ENOTFOUND" => some "Host not found"
  | "ETIMEDOUT" => some "Request timeout"
  | "ECONNRESET" => some "Connection reset"
  | "ECONNABORTED" => some "Connection aborted"
  | _ => none

/-- `HttpClient.formatError` (src/http-client.ts:167-186).
`error.code` truthy ⇒ "CODE: message" (table lookup, falling back to
`error.message`, which JS would render as "undefined" when absent);
otherwise `error.response` ⇒ "HTTP status: statusText"; otherwise
`error.message || "Unknown network error"`. -/
def formatError (e : TransportFailure) : String :=
  match strTruthy e.code with
  | some c => c ++ ": " ++ ((codeMessages c).getD (e.message.getD "undefined"))
  | none =>
    match e.responseStatus with
    | some (st, stText) => "HTTP " ++ toString st ++ ": " ++ stText
    | none => (strTruthy e.message).getD "Unknown network error"

/-- `HttpClient.makeRequest` (src/http-client.ts:67-96): a resolved response
(any status code) becomes a result with `statusCode` and no `error`; a
transport failure is caught and becomes a result with `error` and no
`statusCode`. -/
def makeRequest (env : Transport) (index : ℕ) : RequestResult :=
  match env index with
  | .ok r =>
    { index := index
      statusCode := some r.status
      responseTime := r.responseTime
      responseSize := some r.size }
  | .err e =>
    { index := index
      responseTime := e.responseTime
      error := some (formatError e) }

/-- `HttpClient.makeConcurrentRequests` (src/http-client.ts:101-122).
The source dispatches requests `startIndex + i` for `i < count` through a
fresh `ConcurrencySemaphore(concurrency)` (the semaphore, modelled below as
`SemStep`, only throttles timing — it never drops or duplicates an index),
collects results in completion order and returns them re-sorted ascending by
`index`.  Since the indices are pairwise distinct the sorted list is exactly
the results in index order, which is how the value is modelled
(`makeConcurrentRequests_eq_of_perm` below justifies that any completion
order sorts back to this list). -/
def makeConcurrentRequests (env : Transport) (startIndex count concurrency : ℕ) :
    List RequestResult :=
  (List.range count).map fun i => makeRequest env (startIndex + i)

/-! ## The concurrency semaphore (`ConcurrencySemaphore`, src/http-client.ts:199-232)

Modelled as a transition system.  A state holds the free-permit counter, the
FIFO wait queue of suspended callers and the multiset (list) of callers
currently holding a permit; callers are identified by naturals. -/

structure SemState where
  permits : ℕ
  waitQueue : List ℕ
  holding : List ℕ
deriving Repr, DecidableEq

/-- `new ConcurrencySemaphore(permits)`: `this.permits = Math.max(1, permits)`,
empty queue, nobody holding. -/
def initSem (permits : ℕ) : SemState :=
  { permits := max 1 permits, waitQueue := [], holding := [] }

/-- One step of the semaphore:
* `acquire()` with a free permit: decrement and hold;
* `acquire()` without a free permit: append the caller to `waitQueue`;
* `release()` with an empty queue: increment the permit counter;
* `release()` with a waiting caller: increment then immediately decrement
  the counter and hand the permit to the *head* of the queue (`shift()`),
  which starts holding. -/
inductive SemStep : SemState → SemState → Prop
  | acquireImmediate (s : SemState) (c : ℕ) (hp : 0 < s.permits) :
      SemStep s { permits := s.permits - 1, waitQueue := s.waitQueue,
                  holding := c :: s.holding }
  | acquireWait (s : SemState) (c : ℕ) (hp : s.permits = 0) :
      SemStep s { s with waitQueue := s.waitQueue ++ [c] }
  | releaseEmpty (s : SemState) (c : ℕ) (hc : c ∈ s.holding)
      (hq : s.waitQueue = []) :
      SemStep s { permits := s.permits + 1, waitQueue := [],
                  holding := s.holding.erase c }
  | releaseHandoff (s : SemState) (c d : ℕ) (rest : List ℕ)
      (hc : c ∈ s.holding) (hq : s.waitQueue = d :: rest) :
      SemStep s { permits := s.permits + 1 - 1, waitQueue := rest,
                  holding := d :: s.holding.erase c }

/-- States reachable from a freshly constructed semaphore. -/
def SemReachable (permits : ℕ) (s : SemState) : Prop :=
  Relation.ReflTransGen SemStep (initSem permits) s

/-! ## Pattern schedulers (`src/stress-tester.ts`)

Each pattern executor is embedded as a pure function producing the *trace*
of its run: the sequence of `makeConcurrentRequests` dispatches (start
index, count, concurrency) interleaved with the `sleep` pauses, in program
order.  Sleep durations are `ℚ` because ramp-up's `stepDuration` is a
floating-point division. -/

inductive AttackPattern
  | burst
  | sustained
  | rampUp
  | wave
  | spike
deriving Repr, DecidableEq

inductive Event
  | dispatch (startIndex count concurrency : ℕ)
  | sleep (ms : ℚ)
deriving Repr, DecidableEq

/-- The results a single trace event contributes to `this.results`. -/
def Event.results (env : Transport) : Event → List RequestResult
  | .dispatch s c k => makeConcurrentRequests env s c k
  | .sleep _ => []

/-- The run log accumulated over a trace (`this.results` after the run). -/
def traceResults (env : Transport) (tr : List Event) : List RequestResult :=
  tr.flatMap (Event.results env)

/-- The `index` fields of the accumulated run log, in order. -/
def traceIndices (env : Transport) (tr : List Event) : List ℕ :=
  (traceResults env tr).map RequestResult.index

/-- Number of dispatch events (phases) in a trace. -/
def numDispatches (tr : List Event) : ℕ :=
  tr.countP fun e => match e with | .dispatch _ _ _ => true | .sleep _ => false

/-- Sum of the dispatch counts of a trace (requests issued over the run). -/
def dispatchTotal (tr : List Event) : ℕ :=
  (tr.map fun e => match e with | .dispatch _ c _ => c | .sleep _ => 0).sum

/-- `executeBurstPattern` (src/stress-tester.ts:137-148): one phase of
`totalRequests` requests at `Config.concurrency`. -/
def executeBurstPattern (concurrency totalRequests : ℕ) : List Event :=
  [Event.dispatch 0 totalRequests concurrency]

/-- `executeSustainedPattern` (src/stress-tester.ts:107-132).
`batchSize = min(concurrency, totalRequests)`;
`batches = Math.ceil(totalRequests / batchSize)` (for `batchSize ≥ 1` this
is `(totalRequests + batchSize - 1) / batchSize`; for `batchSize = 0`, i.e.
`totalRequests = 0` or `concurrency = 0`, the JS loop bound is `NaN` and no
iteration runs, matching the `ℕ`-division value `0`).  The inter-batch
delay is applied when `config.delay` is truthy and the batch is not the
last; the raw delay is an `ℤ` (`0` models both `undefined` and `0`, which
are equally falsy in the source). -/
def executeSustainedPattern (concurrency totalRequests : ℕ) (delay : ℤ) :
    List Event :=
  let batchSize := min concurrency totalRequests
  let batches := (totalRequests + batchSize - 1) / batchSize
  (List.range batches).flatMap fun batch =>
    let startIndex := batch * batchSize
    let requestsInBatch := min batchSize (totalRequests - startIndex)
    Event.dispatch startIndex requestsInBatch concurrency ::
      (if delay ≠ 0 ∧ batch < batches - 1 then [Event.sleep (delay : ℚ)] else [])

/-- The ramp-up `stepDuration`:
`rampUpTime / Math.ceil((endConcurrency - startConcurrency) / step)`.
For `step = 0` JS yields `rampUpTime / Infinity = 0`, matching the `ℚ`
convention `x / 0 = 0`. -/
def stepDurationQ (startConcurrency endConcurrency step rampUpTime : ℕ) : ℚ :=
  (rampUpTime : ℚ) /
    ((⌈((endConcurrency : ℚ) - (startConcurrency : ℚ)) / (step : ℚ)⌉ : ℤ) : ℚ)

/-- The `while` loop of `executeRampUpPattern` (src/stress-tester.ts:176-199),
embedded with structural fuel.  Every iteration whose guard holds dispatches
`min current (total - idx) ≥ 1` requests when `current ≥ 1`, so
`fuel = total + 1` (as supplied by `executeRampUpPattern`) is never
exhausted under a validated configuration (`startConcurrency ≥ 1`); with
`current = 0` the JS loop would spin forever dispatching empty batches,
which the embedding cuts off at fuel 0. -/
def rampUpLoop (total endConcurrency step : ℕ) (stepDuration : ℚ) :
    ℕ → ℕ → ℕ → List Event
  | 0, _, _ => []
  | fuel + 1, current, idx =>
    if current ≤ endConcurrency ∧ idx < total then
      -- requestsToSend = min current (total - idx), inlined
      Event.dispatch idx (min current (total - idx)) current ::
        (if current < endConcurrency then
          Event.sleep stepDuration ::
            rampUpLoop total endConcurrency step stepDuration fuel
              (min (current + step) endConcurrency) (idx + min current (total - idx))
        else
          rampUpLoop total endConcurrency step stepDuration fuel
            current (idx + min current (total - idx)))
    else []

/-- `executeRampUpPattern` (src/stress-tester.ts:153-200), after its
configuration has been validated.  `step` defaults to `1` at the
destructuring site (handled by the caller `executePattern`). -/
def executeRampUpPattern
    (startConcurrency endConcurrency step rampUpTime totalRequests : ℕ) :
    List Event :=
  rampUpLoop totalRequests endConcurrency step
    (stepDurationQ startConcurrency endConcurrency step rampUpTime)
    (totalRequests + 1) startConcurrency 0

/-- `executeWavePattern` (src/stress-tester.ts:205-233): 3 waves of
`Math.floor(totalRequests / 3)` requests, the last wave absorbing the
remainder, a 2000ms pause between waves. -/
def executeWavePattern (concurrency totalRequests : ℕ) : List Event :=
  let waveCount := 3
  let requestsPerWave := totalRequests / waveCount
  (List.range waveCount).flatMap fun wave =>
    let startIndex := wave * requestsPerWave
    let requestsInWave :=
      if wave = waveCount - 1 then totalRequests - startIndex else requestsPerWave
    Event.dispatch startIndex requestsInWave concurrency ::
      (if wave < waveCount - 1 then [Event.sleep 2000] else [])

/-- `executeSpikePattern` (src/stress-tester.ts:238-267).
`spikeRequests = Math.floor(totalRequests * 0.8)` (modelled exactly as
`totalRequests * 8 / 10`), `normalRequests = totalRequests - spikeRequests`.
The *normal* phase dispatches the `normalRequests` at
`Math.floor(concurrency * 0.3)` (= `concurrency * 3 / 10`) first, then after
a 1000ms pause the *spike* phase dispatches the `spikeRequests` at full
concurrency. -/
def executeSpikePattern (concurrency totalRequests : ℕ) : List Event :=
  let spikeRequests := totalRequests * 8 / 10
  let normalRequests := totalRequests - spikeRequests
  (if 0 < normalRequests then
    [Event.dispatch 0 normalRequests (concurrency * 3 / 10)]
  else []) ++
    [Event.sleep 1000] ++
    [Event.dispatch normalRequests spikeRequests concurrency]

/-! ## Statistics aggregator (`src/stress-tester.ts:272-330`) -/

/-- JS truthiness of an optional status code (`undefined` and `0` are falsy). -/
def natTruthy : Option ℕ → Bool
  | none => false
  | some n => n != 0

/-- The `successfulRequests` filter: `r.statusCode && r.statusCode < 400`. -/
def isSuccessful (r : RequestResult) : Bool :=
  natTruthy r.statusCode && r.statusCode.getD 0 < 400

/-- The `failedRequests` filter:
`!r.statusCode || r.statusCode >= 400 || r.error`. -/
def isFailed (r : RequestResult) : Bool :=
  !natTruthy r.statusCode || 400 ≤ r.statusCode.getD 0 || (strTruthy r.error).isSome

/-- The response-time sample of a result collection: times `> 0`, sorted
ascending (`.filter(r => r.responseTime > 0).map(...).sort((a, b) => a - b)`). -/
def sortedResponseTimes (results : List RequestResult) : List ℕ :=
  ((results.filter fun r => 0 < r.responseTime).map
    fun r => r.responseTime).insertionSort (· ≤ ·)

/-- `calculatePercentile` (src/stress-tester.ts:316-321).
`index = Math.ceil((percentile / 100) * n) - 1`, then the element at
`Math.max(0, Math.min(index, n - 1))`.  The percentile argument is a
natural (the source calls it with 50, 95, 99) and
`Math.ceil(p * n / 100)` is the natural number `(p * n + 99) / 100`
(proved against the spec-side rational-ceiling formula in `C6`). -/
def calculatePercentile (sortedArray : List ℕ) (percentile : ℕ) : ℕ :=
  if sortedArray.length = 0 then 0
  else
    let index : ℤ :=
      ((percentile * sortedArray.length + 99) / 100 : ℕ) - 1
    sortedArray.getD
      (max 0 (min index ((sortedArray.length : ℤ) - 1))).toNat 0

/-- `calculateAverage` (src/stress-tester.ts:326-330). -/
def calculateAverage (numbers : List ℕ) : ℚ :=
  if 0 < numbers.length then (numbers.sum : ℚ) / (numbers.length : ℚ) else 0

/-- `TestStats` (src/types.ts).  The two distributions are frequency maps,
modelled as count functions. -/
structure TestStats where
  totalRequests : ℕ
  successfulRequests : ℕ
  failedRequests : ℕ
  successRate : ℚ
  avgResponseTime : ℚ
  minResponseTime : ℕ
  maxResponseTime : ℕ
  p50ResponseTime : ℕ
  p95ResponseTime : ℕ
  p99ResponseTime : ℕ
  requestsPerSecond : ℚ
  totalDataTransferred : ℕ
  errorDistribution : String → ℕ
  statusCodeDistribution : ℕ → ℕ

/-- `calculateStats` (src/stress-tester.ts:272-311).  `duration` stands for
`this.endTime - this.startTime`.  `responseTimes[0] || 0` and
`responseTimes[length - 1] || 0` coincide with `getD _ 0` (a present entry
is positive, hence truthy; a missing one is `undefined`). -/
def calculateStats (results : List RequestResult) (duration : ℕ) : TestStats :=
  let successfulRequests := results.filter isSuccessful
  let failedRequests := results.filter isFailed
  let responseTimes := sortedResponseTimes results
  let totalDataTransferred := (results.map fun r => r.responseSize.getD 0).sum
  { totalRequests := results.length
    successfulRequests := successfulRequests.length
    failedRequests := failedRequests.length
    successRate :=
      if 0 < results.length then
        ((successfulRequests.length : ℚ) / (results.length : ℚ)) * 100
      else 0
    avgResponseTime := calculateAverage responseTimes
    minResponseTime := responseTimes.getD 0 0
    maxResponseTime := responseTimes.getD (responseTimes.length - 1) 0
    p50ResponseTime := calculatePercentile responseTimes 50
    p95ResponseTime := calculatePercentile responseTimes 95
    p99ResponseTime := calculatePercentile responseTimes 99
    requestsPerSecond :=
      if 0 < duration then ((results.length : ℚ) / (duration : ℚ)) * 1000 else 0
    totalDataTransferred := totalDataTransferred
    errorDistribution := fun key =>
      (failedRequests.map fun r => (strTruthy r.error).getD "Unknown error").count key
    statusCodeDistribution := fun code =>
      results.countP fun r => natTruthy r.statusCode && r.statusCode.getD 0 == code }

/-! ## Configuration and validation (`src/stress-tester.ts:397-430`)

Raw configuration fields are JS numbers that validation compares against
`0`, so they are modelled as `ℤ` (`Option ℤ` when the field is optional). -/

structure RampUpConfig where
  startConcurrency : ℤ
  endConcurrency : ℤ
  rampUpTime : ℤ
  step : Option ℤ := none
deriving Repr, DecidableEq

structure StressTestConfig where
  url : String
  concurrency : ℤ
  totalRequests : ℤ
  duration : Option ℤ := none
  delay : Option ℤ := none
  timeout : Option ℤ := none
  pattern : Option AttackPattern := none
  rampUp : Option RampUpConfig := none
deriving Repr, DecidableEq

/-- JS truthiness of an optional number (`undefined` and `0` are falsy). -/
def intTruthy : Option ℤ → Bool
  | none => false
  | some n => n != 0

/-- `validateConfig` (src/stress-tester.ts:397-413), run by the
`StressTester` constructor.  Note: `totalRequests <= 0` throws regardless of
`duration`, and the timeout check fires only when `config.timeout` is
truthy (`config.timeout && config.timeout <= 0`). -/
def validateConfig (config : StressTestConfig) : Except String Unit :=
  if config.url = "" then .error "URL is required"
  else if config.concurrency ≤ 0 then .error "Concurrency must be greater than 0"
  else if config.totalRequests ≤ 0 then .error "Total requests must be greater than 0"
  else if intTruthy config.timeout && config.timeout.getD 0 ≤ 0 then
    .error "Timeout must be greater than 0"
  else .ok ()

/-- `validateRampUpConfig` (src/stress-tester.ts:418-430), run by
`executeRampUpPattern` before its first dispatch. -/
def validateRampUpConfig (rampUp : RampUpConfig) : Except String Unit :=
  if rampUp.startConcurrency ≤ 0 ∨ rampUp.endConcurrency ≤ 0 then
    .error "Ramp-up concurrency values must be greater than 0"
  else if rampUp.startConcurrency ≥ rampUp.endConcurrency then
    .error "End concurrency must be greater than start concurrency"
  else if rampUp.rampUpTime ≤ 0 then
    .error "Ramp-up time must be greater than 0"
  else .ok ()

/-- `StressTester.executePattern` (src/stress-tester.ts:62-83) on a
validated configuration, producing the run's trace.  The pattern defaults
to `sustained`.  For ramp-up, a missing `rampUp` block throws, and
`validateRampUpConfig` runs before any dispatch; `step` defaults to `1`
when `undefined`. -/
def executePattern (config : StressTestConfig) : Except String (List Event) :=
  match config.pattern.getD .sustained with
  | .burst =>
    .ok (executeBurstPattern config.concurrency.toNat config.totalRequests.toNat)
  | .rampUp =>
    match config.rampUp with
    | none => .error "Ramp-up configuration is required for ramp-up pattern"
    | some r =>
      (validateRampUpConfig r).map fun _ =>
        executeRampUpPattern r.startConcurrency.toNat r.endConcurrency.toNat
          (r.step.getD 1).toNat r.rampUpTime.toNat config.totalRequests.toNat
  | .wave =>
    .ok (executeWavePattern config.concurrency.toNat config.totalRequests.toNat)
  | .spike =>
    .ok (executeSpikePattern config.concurrency.toNat config.totalRequests.toNat)
  | .sustained =>
    .ok (executeSustainedPattern config.concurrency.toNat config.totalRequests.toNat
      (config.delay.getD 0))

/-- `new StressTester(config)` followed by `run()`: constructor validation
first (a `ConfigurationError` aborts with no trace and no results), then the
pattern executes. -/
def run (config : StressTestConfig) : Except String (List Event) :=
  (validateConfig config).bind fun _ => executePattern config

/-! ## Spec-side definitions

These transcribe claim wordings, for comparison against the source-derived
definitions above. -/

/-- Spec-side nearest-rank index: `ceil(p/100 · n) − 1` as stated, over `ℚ`. -/
def nearestRankIndex (p n : ℕ) : ℤ :=
  ⌈((p : ℚ) / 100) * (n : ℚ)⌉ - 1

/-- Spec-side nearest-rank percentile: the element of the ascending sample at
`nearestRankIndex` clamped to `[0, n−1]`, and `0` for an empty sample. -/
def percentileSpec (sample : List ℕ) (p : ℕ) : ℕ :=
  if sample = [] then 0
  else
    sample.getD
      (min (max (nearestRankIndex p sample.length) 0)
        ((sample.length : ℤ) - 1)).toNat 0

/-- The ramp-up validity condition exactly as claim C4 states it. -/
def claimedRampUpValid : Option RampUpConfig → Prop
  | some r =>
    0 < r.startConcurrency ∧ r.startConcurrency < r.endConcurrency ∧
      0 < r.rampUpTime
  | none => False

instance : DecidablePred claimedRampUpValid := fun o =>
  match o with
  | some r =>
    (inferInstance :
      Decidable (0 < r.startConcurrency ∧ r.startConcurrency < r.endConcurrency ∧
        0 < r.rampUpTime))
  | none => (inferInstance : Decidable False)

/-- The `Config` validity predicate exactly as claim C4 states it:
url present, `concurrency > 0`, `totalRequests > 0` **or** `duration > 0`,
`timeout > 0`, and for `pattern = ramp-up` additionally
`startConcurrency > 0`, `endConcurrency > startConcurrency`,
`rampUpTime > 0`. -/
def claimedValidConfig (c : StressTestConfig) : Prop :=
  c.url ≠ "" ∧ 0 < c.concurrency ∧
    (0 < c.totalRequests ∨ 0 < c.duration.getD 0) ∧
    0 < c.timeout.getD 0 ∧
    (c.pattern = some .rampUp → claimedRampUpValid c.rampUp)

instance (c : StressTestConfig) : Decidable (claimedValidConfig c) := by
  unfold claimedValidConfig; infer_instance

/-- The state after caller `5` acquires a permit from a fresh 2-permit
semaphore (used by the C9 witness). -/
def semAfterAcquire : SemState :=
  { permits := (initSem 2).permits - 1, waitQueue := (initSem 2).waitQueue,
    holding := 5 :: (initSem 2).holding }

/-- Exactly one of `statusCode` / `error` is set (claim C10's result shape). -/
def statusXorError (r : RequestResult) : Prop :=
  (r.statusCode.isSome ∧ r.error = none) ∨ (r.statusCode = none ∧ r.error.isSome)

instance (r : RequestResult) : Decidable (statusXorError r) := by
  unfold statusXorError; infer_instance

/-! ## Concrete environments used by witnesses -/

/-- A transport in which every request resolves with status 200. -/
def envOK : Transport := fun _ =>
  .ok { status := 200, responseTime := 5, size := 10 }

/-- A connection-refused transport failure. -/
def refusedFailure : TransportFailure :=
  { code := some "ECONNREFUSED", message := some "connect ECONNREFUSED",
    responseTime := 3 }

/-- A transport in which every request fails with `ECONNREFUSED`. -/
def envRefused : Transport := fun _ => .err refusedFailure

/-! ## Supporting lemmas -/

theorem makeRequest_index (env : Transport) (i : ℕ) :
    (makeRequest env i).index = i := by
  unfold makeRequest
  cases env i <;> rfl

theorem makeConcurrentRequests_map_index (env : Transport) (s n k : ℕ) :
    (makeConcurrentRequests env s n k).map RequestResult.index = List.range' s n := by
  simp [makeConcurrentRequests, List.map_map, Function.comp_def, makeRequest_index,
    List.range'_eq_map_range]

instance : IsAntisymm RequestResult (fun a b => a.index < b.index) :=
  ⟨fun _ _ h1 h2 => absurd (h1.trans h2) (lt_irrefl _)⟩

theorem makeConcurrentRequests_sorted (env : Transport) (s n k : ℕ) :
    (makeConcurrentRequests env s n k).Pairwise fun a b => a.index < b.index := by
  rw [makeConcurrentRequests]
  refine List.pairwise_map.mpr ?_
  exact (List.pairwise_lt_range n).imp fun hab => by
    simpa [makeRequest_index] using Nat.add_lt_add_left hab s

/-- Justification for modelling `makeConcurrentRequests` by its index-sorted
value: any completion-order permutation of the dispatched results, once
sorted strictly by index, is the canonical index-ordered list. -/
theorem makeConcurrentRequests_eq_of_perm (env : Transport) (s n k : ℕ)
    (l : List RequestResult) (hperm : l.Perm (makeConcurrentRequests env s n k))
    (hsorted : l.Pairwise fun a b => a.index < b.index) :
    l = makeConcurrentRequests env s n k :=
  List.eq_of_perm_of_sorted hperm hsorted (makeConcurrentRequests_sorted env s n k)

@[simp]
theorem traceIndices_nil (env : Transport) : traceIndices env [] = [] := rfl

@[simp]
theorem traceIndices_cons (env : Transport) (e : Event) (tr : List Event) :
    traceIndices env (e :: tr) =
      (Event.results env e).map RequestResult.index ++ traceIndices env tr := by
  simp [traceIndices, traceResults]

@[simp]
theorem traceIndices_append (env : Transport) (tr₁ tr₂ : List Event) :
    traceIndices env (tr₁ ++ tr₂) = traceIndices env tr₁ ++ traceIndices env tr₂ := by
  simp [traceIndices, traceResults]

@[simp]
theorem results_dispatch (env : Transport) (s c k : ℕ) :
    (Event.results env (.dispatch s c k)).map RequestResult.index = List.range' s c :=
  makeConcurrentRequests_map_index env s c k

@[simp]
theorem results_sleep (env : Transport) (q : ℚ) :
    Event.results env (.sleep q) = [] := rfl

theorem traceIndices_flatMap (env : Transport) (l : List ℕ) (f : ℕ → List Event) :
    traceIndices env (l.flatMap f) = l.flatMap fun x => traceIndices env (f x) := by
  induction l with
  | nil => rfl
  | cons a t ih => simp [List.flatMap_cons, ih]

theorem traceIndices_length (env : Transport) (tr : List Event) :
    (traceIndices env tr).length = dispatchTotal tr := by
  induction tr with
  | nil => rfl
  | cons e t ih =>
    cases e with
    | dispatch s c k =>
      simp [dispatchTotal] at ih ⊢
      omega
    | sleep q => simpa [dispatchTotal] using ih

/-! ## C5: the request executor never raises for ordinary failures -/

/-- **C5.** `makeRequest(index)` always returns a `Result`: a resolved
response with any status code (including `≥ 400`) yields `statusCode` set
and no `error`; a transport-layer failure yields `error` set (prefixed by
the underlying reason code when one is available) and no `statusCode`. -/
theorem C5_makeRequest_never_raises (env : Transport) (index : ℕ) :
    (∀ r, env index = .ok r →
      (makeRequest env index).statusCode = some r.status ∧
      (makeRequest env index).error = none) ∧
    (∀ e, env index = .err e →
      (makeRequest env index).error = some (formatError e) ∧
      (makeRequest env index).statusCode = none) ∧
    (∀ e c, strTruthy e.code = some c → ∃ m, formatError e = c ++ ": " ++ m) := by
  refine ⟨fun r hr => ?_, fun e he => ?_, fun e c hc => ?_⟩
  · simp [makeRequest, hr]
  · simp [makeRequest, he]
  · unfold formatError
    rw [hc]
    exact ⟨_, rfl⟩

theorem C5_witness :
    (makeRequest envRefused 0).error = some (formatError refusedFailure) ∧
    (makeRequest envRefused 0).statusCode = none :=
  (C5_makeRequest_never_raises envRefused 0).2.1 _ rfl

/-! ## C10: statusCode/error exclusivity and success/failure partition -/

theorem isFailed_eq_not_isSuccessful {r : RequestResult} (h : statusXorError r) :
    isFailed r = !isSuccessful r := by
  rcases h with ⟨hs, he⟩ | ⟨hs, he⟩
  · rcases hsc : r.statusCode with _ | s
    · rw [hsc] at hs; exact absurd hs (by simp)
    · by_cases h0 : s = 0 <;> by_cases h4 : s < 400 <;>
        simp [isFailed, isSuccessful, natTruthy, strTruthy, hsc, he, h0, h4] <;>
        omega
  · rcases hse : r.error with _ | e
    · rw [hse] at he; exact absurd he (by simp)
    · simp [isFailed, isSuccessful, natTruthy, hs]

theorem filter_partition_of_forall :
    ∀ rs : List RequestResult, (∀ r ∈ rs, isFailed r = !isSuccessful r) →
      (rs.filter isSuccessful).length + (rs.filter isFailed).length = rs.length := by
  intro rs h
  induction rs with
  | nil => rfl
  | cons a t ih =>
    have ha := h a (List.mem_cons_self a t)
    have ht := ih fun r hr => h r (List.mem_cons_of_mem a hr)
    rcases hs : isSuccessful a <;>
      simp [List.filter_cons, hs, ha, hs ▸ ha] <;> omega

/-- **C10.** Every `makeRequest` result has exactly one of `statusCode` /
`error` set, and for any collection of that shape the successful
(`statusCode` truthy and `< 400`) and failed (`statusCode` falsy, `≥ 400`,
or `error` set) counts computed by `calculateStats` partition it:
`successfulRequests + failedRequests = totalRequests`. -/
theorem C10_success_failure_partition :
    (∀ (env : Transport) (i : ℕ), statusXorError (makeRequest env i)) ∧
    (∀ (rs : List RequestResult) (d : ℕ), (∀ r ∈ rs, statusXorError r) →
      (calculateStats rs d).successfulRequests + (calculateStats rs d).failedRequests =
        (calculateStats rs d).totalRequests) := by
  constructor
  · intro env i
    unfold statusXorError makeRequest
    cases env i <;> simp
  · intro rs d h
    exact filter_partition_of_forall rs fun r hr => isFailed_eq_not_isSuccessful (h r hr)

/-! ## Percentile arithmetic -/

/-- `Math.ceil(a / 100)` on a natural numerator is `(a + 99) / 100`. -/
theorem ceil_div_100 (a : ℕ) :
    ⌈(a : ℚ) / 100⌉ = (((a + 99) / 100 : ℕ) : ℤ) := by
  have h1 : ((((a + 99) / 100 : ℕ) : ℤ) - 1) * 100 < (a : ℤ) := by omega
  have h2 : (a : ℤ) ≤ (((a + 99) / 100 : ℕ) : ℤ) * 100 := by omega
  rw [Int.ceil_eq_iff]
  constructor
  · rw [lt_div_iff₀ (by norm_num : (0:ℚ) < 100)]
    exact_mod_cast h1
  · rw [div_le_iff₀ (by norm_num : (0:ℚ) < 100)]
    exact_mod_cast h2

theorem sorted_getD_mono (l : List ℕ) (hl : l.Sorted (· ≤ ·)) (i j : ℕ)
    (hij : i ≤ j) (hj : j < l.length) : l.getD i 0 ≤ l.getD j 0 := by
  have hi : i < l.length := lt_of_le_of_lt hij hj
  rw [List.getD_eq_getElem l 0 hi, List.getD_eq_getElem l 0 hj]
  rcases eq_or_lt_of_le hij with rfl | hlt
  · exact le_refl _
  · have := List.Sorted.rel_get_of_lt hl
      (a := ⟨i, hi⟩) (b := ⟨j, hj⟩) (by exact hlt)
    simpa [List.get_eq_getElem] using this

theorem calculatePercentile_mono (S : List ℕ) (hs : S.Sorted (· ≤ ·))
    {p q : ℕ} (hpq : p ≤ q) :
    calculatePercentile S p ≤ calculatePercentile S q := by
  unfold calculatePercentile
  by_cases h0 : S.length = 0
  · simp [h0]
  · rw [if_neg h0, if_neg h0]
    have hdiv : (p * S.length + 99) / 100 ≤ (q * S.length + 99) / 100 :=
      Nat.div_le_div_right (by
        have := Nat.mul_le_mul_right S.length hpq
        omega)
    exact sorted_getD_mono S hs _ _ (by omega) (by omega)

theorem calculatePercentile_le_getD_last (S : List ℕ) (hs : S.Sorted (· ≤ ·))
    (h0 : S.length ≠ 0) (p : ℕ) :
    calculatePercentile S p ≤ S.getD (S.length - 1) 0 := by
  unfold calculatePercentile
  rw [if_neg h0]
  exact sorted_getD_mono S hs _ _ (by omega) (by omega)

/-! ## C6: nearest-rank percentile -/

/-- **C6.** `calculatePercentile` computes exactly the spec's nearest-rank
formula — the element of the ascending sample at `⌈p/100 · n⌉ − 1` clamped
to `[0, n−1]`, `0` on the empty sample — and `calculateStats` applies it to
the subset of results with elapsed time `> 0` sorted ascending. -/
theorem C6_percentile_nearest_rank :
    (∀ (sample : List ℕ) (p : ℕ),
      calculatePercentile sample p = percentileSpec sample p) ∧
    (∀ (rs : List RequestResult) (d : ℕ),
      (calculateStats rs d).p50ResponseTime = percentileSpec (sortedResponseTimes rs) 50 ∧
      (calculateStats rs d).p95ResponseTime = percentileSpec (sortedResponseTimes rs) 95 ∧
      (calculateStats rs d).p99ResponseTime = percentileSpec (sortedResponseTimes rs) 99) := by
  have main : ∀ (sample : List ℕ) (p : ℕ),
      calculatePercentile sample p = percentileSpec sample p := by
    intro sample p
    by_cases hnil : sample = []
    · subst hnil; rfl
    · have hn : 1 ≤ sample.length := List.length_pos.mpr hnil
      have hcast : ((p : ℚ) / 100) * (sample.length : ℚ) =
          ((p * sample.length : ℕ) : ℚ) / 100 := by
        push_cast; ring
      unfold calculatePercentile percentileSpec nearestRankIndex
      rw [if_neg (by omega), if_neg hnil, hcast, ceil_div_100]
      show sample.getD
        (max 0 (min ((((p * sample.length + 99) / 100 : ℕ) : ℤ) - 1)
          ((sample.length : ℤ) - 1))).toNat 0 = _
      congr 1
      omega
  exact ⟨main, fun rs d => ⟨main _ 50, main _ 95, main _ 99⟩⟩

/-! ## C7: percentile monotonicity -/

/-- **C7.** For every result collection with a non-empty response-time
sample, the aggregated statistics satisfy
`p50 ≤ p95 ≤ p99 ≤ maxResponseTime`. -/
theorem C7_percentile_monotone (rs : List RequestResult) (d : ℕ)
    (h : sortedResponseTimes rs ≠ []) :
    (calculateStats rs d).p50ResponseTime ≤ (calculateStats rs d).p95ResponseTime ∧
    (calculateStats rs d).p95ResponseTime ≤ (calculateStats rs d).p99ResponseTime ∧
    (calculateStats rs d).p99ResponseTime ≤ (calculateStats rs d).maxResponseTime := by
  have hs : (sortedResponseTimes rs).Sorted (· ≤ ·) :=
    List.sorted_insertionSort _ _
  have h0 : (sortedResponseTimes rs).length ≠ 0 := by
    simpa [List.length_eq_zero] using h
  exact ⟨calculatePercentile_mono _ hs (by norm_num),
    calculatePercentile_mono _ hs (by norm_num),
    calculatePercentile_le_getD_last _ hs h0 99⟩

theorem C7_witness :
    sortedResponseTimes [makeRequest envOK 0] ≠ [] ∧
    ((calculateStats [makeRequest envOK 0] 7).p50ResponseTime ≤
        (calculateStats [makeRequest envOK 0] 7).p95ResponseTime ∧
      (calculateStats [makeRequest envOK 0] 7).p95ResponseTime ≤
        (calculateStats [makeRequest envOK 0] 7).p99ResponseTime ∧
      (calculateStats [makeRequest envOK 0] 7).p99ResponseTime ≤
        (calculateStats [makeRequest envOK 0] 7).maxResponseTime) :=
  ⟨by decide, C7_percentile_monotone _ 7 (by decide)⟩

/-! ## C4: configuration validation -/

/-- **C4 (counterexample).** A config that is valid in the claim's sense
(`duration > 0` substituting for `totalRequests > 0`, timeout positive) is
nevertheless rejected: `validateConfig` requires `totalRequests > 0`
unconditionally and never consults `duration`. -/
theorem C4_counterexample :
    claimedValidConfig
      { url := "http://localhost", concurrency := 1, totalRequests := 0,
        duration := some 5000, timeout := some 100 } ∧
    validateConfig
      { url := "http://localhost", concurrency := 1, totalRequests := 0,
        duration := some 5000, timeout := some 100 } =
      .error "Total requests must be greater than 0" := by
  constructor
  · decide
  · rfl

/-- **C4 (amended).** Construction raises exactly when url is empty,
`concurrency ≤ 0`, `totalRequests ≤ 0` (`duration` is never consulted), or
`timeout` is set and negative (a missing or zero timeout passes); the
ramp-up parameters are validated at run time but before any dispatch
(`startConcurrency > 0`, `endConcurrency > startConcurrency`,
`rampUpTime > 0`); any validation failure aborts the run with no trace and
hence zero accumulated Results. -/
theorem C4_validation_amended :
    (∀ cfg : StressTestConfig, validateConfig cfg = .ok () ↔
      (cfg.url ≠ "" ∧ 0 < cfg.concurrency ∧ 0 < cfg.totalRequests ∧
        ∀ t, cfg.timeout = some t → 0 ≤ t)) ∧
    (∀ r : RampUpConfig, validateRampUpConfig r = .ok () ↔
      (0 < r.startConcurrency ∧ r.startConcurrency < r.endConcurrency ∧
        0 < r.rampUpTime)) ∧
    (∀ (cfg : StressTestConfig) (e : String),
      validateConfig cfg = .error e → run cfg = .error e) ∧
    (∀ (cfg : StressTestConfig) (r : RampUpConfig) (e : String),
      cfg.pattern = some .rampUp → cfg.rampUp = some r →
      validateConfig cfg = .ok () → validateRampUpConfig r = .error e →
      run cfg = .error e) := by
  refine ⟨fun cfg => ?_, fun r => ?_, fun cfg e h => ?_, fun cfg r e hp hr hok herr => ?_⟩
  · unfold validateConfig
    split_ifs with h1 h2 h3 h4
    · simp [h1]
    · constructor
      · intro h; exact absurd h (by simp)
      · rintro ⟨-, hc, -⟩; omega
    · constructor
      · intro h; exact absurd h (by simp)
      · rintro ⟨-, -, ht, -⟩; omega
    · constructor
      · intro h; exact absurd h (by simp)
      · rintro ⟨-, -, -, ht⟩
        rcases hto : cfg.timeout with _ | t
        · simp [intTruthy, hto] at h4
        · have := ht t hto
          simp [intTruthy, hto] at h4
          omega
    · refine ⟨fun _ => ⟨?_, by omega, by omega, fun t hto => ?_⟩, fun _ => rfl⟩
      · intro hurl; exact h1 hurl
      · by_contra hneg
        push_neg at hneg
        exact h4 (by simp [intTruthy, hto]; omega)
  · unfold validateRampUpConfig
    split_ifs with h1 h2 h3
    · constructor
      · intro h; exact absurd h (by simp)
      · rintro ⟨hs, he, -⟩; rcases h1 with h | h <;> omega
    · constructor
      · intro h; exact absurd h (by simp)
      · rintro ⟨-, he, -⟩; omega
    · constructor
      · intro h; exact absurd h (by simp)
      · rintro ⟨-, -, ht⟩; omega
    · push_neg at h1
      exact ⟨fun _ => ⟨h1.1, by omega, by omega⟩, fun _ => rfl⟩
  · unfold run
    rw [h]
    rfl
  · unfold run
    rw [hok]
    unfold executePattern
    rw [hp, hr]
    simp [Option.getD, herr, Except.map, Except.bind]

theorem C4_witness :
    validateConfig { url := "", concurrency := 1, totalRequests := 10 } =
      .error "URL is required" ∧
    run { url := "", concurrency := 1, totalRequests := 10 } =
      .error "URL is required" :=
  ⟨rfl, C4_validation_amended.2.2.1 _ _ rfl⟩

/-! ## Batch decomposition arithmetic -/

/-- Consecutive blocks of size `min b (n - k·b)`, for
`k < ⌈n/b⌉ = (n + b - 1)/b`, partition `[s, s+n)`. -/
theorem range_flatMap_batches (b : ℕ) (hb : 1 ≤ b) :
    ∀ n s, ((List.range ((n + b - 1) / b)).flatMap
      fun k => List.range' (s + k * b) (min b (n - k * b))) = List.range' s n := by
  intro n
  induction n using Nat.strong_induction_on with
  | _ n ih =>
    intro s
    rcases Nat.lt_or_ge n 1 with h0 | h1
    · have hn : n = 0 := by omega
      subst hn
      have hz : (0 + b - 1) / b = 0 := Nat.div_eq_of_lt (by omega)
      simp [hz]
    · rcases Nat.lt_or_ge n (b + 1) with hsmall | hbig
      · have hbatches : (n + b - 1) / b = 1 :=
          Nat.div_eq_of_lt_le (by omega) (by omega)
        rw [hbatches]
        show List.range' (s + 0 * b) (min b (n - 0 * b)) ++ [] = _
        rw [List.append_nil]
        congr 1 <;> omega
      · have hstep : (n + b - 1) / b = ((n - b) + b - 1) / b + 1 := by
          have h : n + b - 1 = ((n - b) + b - 1) + b := by omega
          rw [h, Nat.add_div_right _ (by omega)]
        rw [hstep, List.range_succ_eq_map, List.flatMap_cons]
        have hhead : List.range' (s + 0 * b) (min b (n - 0 * b)) = List.range' s b := by
          congr 1 <;> omega
        rw [hhead, List.flatMap_map]
        have hshift : (fun a => List.range' (s + a.succ * b) (min b (n - a.succ * b)))
            = fun k => List.range' ((s + b) + k * b) (min b ((n - b) - k * b)) := by
          funext k
          have hm : k.succ * b = k * b + b := by
            show (k + 1) * b = k * b + b
            ring
          rw [hm]
          congr 1 <;> omega
        rw [hshift, ih (n - b) (by omega) (s + b)]
        have happ := List.range'_append s b (n - b) 1
        simp only [one_mul] at happ
        rw [happ]
        congr 1
        omega

/-- Interleaving a separator after every non-final element of
`(range n).map f` is `intersperse`. -/
theorem flatMap_sep_eq_intersperse (sep : Event) :
    ∀ (n : ℕ) (f : ℕ → Event),
      ((List.range n).flatMap fun k => f k :: (if k < n - 1 then [sep] else []))
        = List.intersperse sep ((List.range n).map f) := by
  intro n
  induction n with
  | zero => intro f; rfl
  | succ m ih =>
    intro f
    rw [List.range_succ_eq_map, List.flatMap_cons, List.map_cons, List.flatMap_map,
      List.map_map]
    have hshift : (fun a => f a.succ :: (if a.succ < m + 1 - 1 then [sep] else []))
        = fun k => (f ∘ Nat.succ) k :: (if k < m - 1 then [sep] else []) := by
      funext k
      simp only [Function.comp_apply]
      by_cases hk : k + 1 < m
      · rw [if_pos (show k.succ < m + 1 - 1 by omega), if_pos (show k < m - 1 by omega)]
      · rw [if_neg (show ¬k.succ < m + 1 - 1 by omega), if_neg (show ¬k < m - 1 by omega)]
    rw [hshift, ih (f ∘ Nat.succ)]
    cases m with
    | zero => rfl
    | succ m' =>
      rw [if_pos (show 0 < m' + 1 + 1 - 1 by omega)]
      rw [List.range_succ_eq_map, List.map_cons]
      rfl

theorem numDispatches_intersperse (q : ℚ) :
    ∀ l : List Event,
      numDispatches (List.intersperse (Event.sleep q) l) = numDispatches l := by
  intro l
  induction l with
  | nil => rfl
  | cons a t ih =>
    cases t with
    | nil => rfl
    | cons c t2 =>
      show numDispatches
        (a :: Event.sleep q :: List.intersperse (Event.sleep q) (c :: t2)) =
        numDispatches (a :: c :: t2)
      unfold numDispatches at ih ⊢
      rw [List.countP_cons, List.countP_cons, ih]
      simp [List.countP_cons]

theorem flatMap_singleton_eq_map (l : List ℕ) (g : ℕ → Event) :
    (l.flatMap fun k => [g k]) = l.map g := by
  induction l with
  | nil => rfl
  | cons a t ih => simp [ih]

theorem numDispatches_map_dispatch (l : List ℕ) (f g h : ℕ → ℕ) :
    numDispatches (l.map fun k => Event.dispatch (f k) (g k) (h k)) = l.length := by
  unfold numDispatches
  rw [List.countP_map]
  simp [Function.comp_def]

/-! ## C8: sustained pattern phase structure -/

/-- **C8.** A sustained run with a valid config consists of exactly
`⌈totalRequests/concurrency⌉` phases; phase `k` starts at `k·batchSize`
(where `batchSize = min(concurrency, totalRequests)`) and dispatches
`min(concurrency, remaining)` requests; with no delay configured the phases
run back-to-back and with a delay configured the sleep is interspersed
strictly *between* consecutive phases, never after the last. -/
theorem C8_sustained_phases (concurrency totalRequests : ℕ) (delay : ℤ)
    (hc : 1 ≤ concurrency) (ht : 1 ≤ totalRequests) :
    numDispatches (executeSustainedPattern concurrency totalRequests delay) =
      (totalRequests + concurrency - 1) / concurrency ∧
    executeSustainedPattern concurrency totalRequests delay =
      (if delay = 0 then
        (List.range ((totalRequests + concurrency - 1) / concurrency)).map fun k =>
          Event.dispatch (k * min concurrency totalRequests)
            (min concurrency
              (totalRequests - k * min concurrency totalRequests)) concurrency
      else
        List.intersperse (Event.sleep (delay : ℚ))
          ((List.range ((totalRequests + concurrency - 1) / concurrency)).map fun k =>
            Event.dispatch (k * min concurrency totalRequests)
              (min concurrency
                (totalRequests - k * min concurrency totalRequests)) concurrency)) := by
  have hb : 1 ≤ min concurrency totalRequests := by omega
  have hceil : (totalRequests + min concurrency totalRequests - 1) /
      min concurrency totalRequests = (totalRequests + concurrency - 1) / concurrency := by
    rcases le_or_lt concurrency totalRequests with h | h
    · rw [min_eq_left h]
    · have hL : (totalRequests + totalRequests - 1) / totalRequests = 1 :=
        Nat.div_eq_of_lt_le (by omega) (by omega)
      have hR : (totalRequests + concurrency - 1) / concurrency = 1 :=
        Nat.div_eq_of_lt_le (by omega) (by omega)
      rw [min_eq_right (le_of_lt h), hL, hR]
  have hmain : executeSustainedPattern concurrency totalRequests delay =
      (if delay = 0 then
        (List.range ((totalRequests + concurrency - 1) / concurrency)).map fun k =>
          Event.dispatch (k * min concurrency totalRequests)
            (min concurrency
              (totalRequests - k * min concurrency totalRequests)) concurrency
      else
        List.intersperse (Event.sleep (delay : ℚ))
          ((List.range ((totalRequests + concurrency - 1) / concurrency)).map fun k =>
            Event.dispatch (k * min concurrency totalRequests)
              (min concurrency
                (totalRequests - k * min concurrency totalRequests)) concurrency)) := by
    unfold executeSustainedPattern
    show (List.range ((totalRequests + min concurrency totalRequests - 1) /
        min concurrency totalRequests)).flatMap (fun batch =>
        Event.dispatch (batch * min concurrency totalRequests)
          (min (min concurrency totalRequests)
            (totalRequests - batch * min concurrency totalRequests)) concurrency ::
          (if delay ≠ 0 ∧ batch < (totalRequests + min concurrency totalRequests - 1) /
              min concurrency totalRequests - 1
            then [Event.sleep (delay : ℚ)] else [])) = _
    rw [hceil]
    by_cases hd : delay = 0
    · rw [if_pos hd]
      have hfun : (fun batch =>
          Event.dispatch (batch * min concurrency totalRequests)
            (min (min concurrency totalRequests)
              (totalRequests - batch * min concurrency totalRequests)) concurrency ::
            (if delay ≠ 0 ∧ batch < (totalRequests + concurrency - 1) / concurrency - 1
              then [Event.sleep (delay : ℚ)] else [])) =
          fun batch =>
            [Event.dispatch (batch * min concurrency totalRequests)
              (min concurrency
                (totalRequests - batch * min concurrency totalRequests)) concurrency] := by
        funext k
        rw [if_neg (by simp [hd])]
        have : min (min concurrency totalRequests)
            (totalRequests - k * min concurrency totalRequests) =
            min concurrency (totalRequests - k * min concurrency totalRequests) := by
          omega
        rw [this]
      rw [hfun]
      exact flatMap_singleton_eq_map _ _
    · rw [if_neg hd]
      have hfun : (fun batch =>
          Event.dispatch (batch * min concurrency totalRequests)
            (min (min concurrency totalRequests)
              (totalRequests - batch * min concurrency totalRequests)) concurrency ::
            (if delay ≠ 0 ∧ batch < (totalRequests + concurrency - 1) / concurrency - 1
              then [Event.sleep (delay : ℚ)] else [])) =
          fun batch =>
            (fun k => Event.dispatch (k * min concurrency totalRequests)
              (min concurrency
                (totalRequests - k * min concurrency totalRequests)) concurrency) batch ::
            (if batch < (totalRequests + concurrency - 1) / concurrency - 1
              then [Event.sleep (delay : ℚ)] else []) := by
        funext k
        have hm : min (min concurrency totalRequests)
            (totalRequests - k * min concurrency totalRequests) =
            min concurrency (totalRequests - k * min concurrency totalRequests) := by
          omega
        rw [hm]
        by_cases hk : k < (totalRequests + concurrency - 1) / concurrency - 1
        · rw [if_pos ⟨hd, hk⟩, if_pos hk]
        · rw [if_neg (by tauto), if_neg hk]
      rw [hfun]
      exact flatMap_sep_eq_intersperse (Event.sleep (delay : ℚ)) _ _
  refine ⟨?_, hmain⟩
  rw [hmain]
  have hlen := numDispatches_map_dispatch
    (List.range ((totalRequests + concurrency - 1) / concurrency))
    (fun k => k * min concurrency totalRequests)
    (fun k => min concurrency (totalRequests - k * min concurrency totalRequests))
    (fun _ => concurrency)
  by_cases hd : delay = 0
  · rw [if_pos hd, hlen, List.length_range]
  · rw [if_neg hd, numDispatches_intersperse, hlen, List.length_range]

theorem C8_witness :
    (1 : ℕ) ≤ 4 ∧ (1 : ℕ) ≤ 10 ∧
    numDispatches (executeSustainedPattern 4 10 50) = (10 + 4 - 1) / 4 :=
  ⟨by decide, by decide, (C8_sustained_phases 4 10 50 (by decide) (by decide)).1⟩

theorem range'_glue (s a c : ℕ) :
    List.range' s a ++ List.range' (s + a) c = List.range' s (a + c) := by
  have happ := List.range'_append s a c 1
  simp only [one_mul] at happ
  rw [happ, Nat.add_comm]

/-! ## Ramp-up loop facts -/

theorem rampUpLoop_indices (env : Transport) (total endC step : ℕ) (sd : ℚ) :
    ∀ (fuel current idx : ℕ), 1 ≤ current → current ≤ endC → total - idx < fuel →
      traceIndices env (rampUpLoop total endC step sd fuel current idx) =
        List.range' idx (total - idx) := by
  intro fuel
  induction fuel with
  | zero => intro current idx h1 h2 h3; omega
  | succ fuel ih =>
    intro current idx h1 h2 h3
    by_cases hidx : idx < total
    · rw [rampUpLoop, if_pos ⟨h2, hidx⟩]
      have happ := List.range'_append idx (min current (total - idx))
        (total - (idx + min current (total - idx))) 1
      simp only [one_mul] at happ
      by_cases hlt : current < endC
      · rw [if_pos hlt, traceIndices_cons, traceIndices_cons, results_sleep,
          results_dispatch,
          ih (min (current + step) endC) (idx + min current (total - idx))
            (by omega) (by omega) (by omega)]
        rw [List.map_nil, List.nil_append, happ]
        congr 1
        omega
      · rw [if_neg hlt, traceIndices_cons, results_dispatch,
          ih current (idx + min current (total - idx)) (by omega) (by omega) (by omega),
          happ]
        congr 1
        omega
    · rw [rampUpLoop, if_neg (by omega)]
      have h0 : total - idx = 0 := by omega
      rw [h0]
      rfl

theorem rampUpLoop_sleep_eq (total endC step : ℕ) (sd : ℚ) :
    ∀ (fuel current idx : ℕ) (q : ℚ),
      Event.sleep q ∈ rampUpLoop total endC step sd fuel current idx → q = sd := by
  intro fuel
  induction fuel with
  | zero => intro current idx q h; exact absurd h (List.not_mem_nil _)
  | succ fuel ih =>
    intro current idx q h
    rw [rampUpLoop] at h
    by_cases hcond : current ≤ endC ∧ idx < total
    · rw [if_pos hcond] at h
      rcases List.mem_cons.mp h with hhead | htail
      · exact absurd hhead (by simp)
      · by_cases hlt : current < endC
        · rw [if_pos hlt] at htail
          rcases List.mem_cons.mp htail with hsleep | hrec
          · injection hsleep
          · exact ih _ _ q hrec
        · rw [if_neg hlt] at htail
          exact ih _ _ q htail
    · rw [if_neg hcond] at h
      exact absurd h (List.not_mem_nil _)

theorem rampUpLoop_dispatch_mem (total endC step : ℕ) (sd : ℚ) :
    ∀ (fuel current idx s c k : ℕ),
      Event.dispatch s c k ∈ rampUpLoop total endC step sd fuel current idx →
        c = min k (total - s) := by
  intro fuel
  induction fuel with
  | zero => intro current idx s c k h; exact absurd h (List.not_mem_nil _)
  | succ fuel ih =>
    intro current idx s c k h
    rw [rampUpLoop] at h
    by_cases hcond : current ≤ endC ∧ idx < total
    · rw [if_pos hcond] at h
      rcases List.mem_cons.mp h with hhead | htail
      · injection hhead with hs hc hk
        subst hs; subst hk; exact hc
      · by_cases hlt : current < endC
        · rw [if_pos hlt] at htail
          rcases List.mem_cons.mp htail with hsleep | hrec
          · exact absurd hsleep (by simp)
          · exact ih _ _ s c k hrec
        · rw [if_neg hlt] at htail
          exact ih _ _ s c k htail
    · rw [if_neg hcond] at h
      exact absurd h (List.not_mem_nil _)

/-! ## C3: ramp-up schedule -/

/-- **C3 (counterexample).** With `start = 10`, `end = 100`, `step = 10`,
`rampUpTime = 9000` and `totalRequests = 600` (large enough to sustain every
plateau: the ascending plateaus consume 550 requests), the run performs 11
dispatches, not 9: after the `endConcurrency` plateau has run once the loop
keeps dispatching at `endConcurrency` until `totalRequests` is exhausted. -/
theorem C3_counterexample :
    numDispatches (executeRampUpPattern 10 100 10 9000 600) = 11 ∧ (11 : ℕ) ≠ 9 := by
  constructor
  · decide
  · decide

/-- **C3 (amended).** The ramp-up scheduler stops dispatching only when
`totalRequests` is exhausted (the sum of dispatch counts equals
`totalRequests`); each plateau dispatches `min(currentConcurrency, remaining)`
requests; every pause equals `rampUpTime / ceil((end−start)/step)`; once
concurrency reaches `endConcurrency` it keeps dispatching at that level with
no pauses.  For `start=10, end=100, step=10, rampUpTime=9000` the pause is
`1000` and with `totalRequests = 600` the run traverses 11 plateaus — the 10
ascending ones `10,20,…,100` (pauses of 1000 between the first ten) followed
by one more at `100`. -/
theorem C3_rampup_amended (startC endC step rampUpTime totalRequests : ℕ)
    (h1 : 1 ≤ startC) (h2 : startC ≤ endC) :
    dispatchTotal (executeRampUpPattern startC endC step rampUpTime totalRequests) =
      totalRequests ∧
    (∀ s c k, Event.dispatch s c k ∈
        executeRampUpPattern startC endC step rampUpTime totalRequests →
      c = min k (totalRequests - s)) ∧
    (∀ q, Event.sleep q ∈
        executeRampUpPattern startC endC step rampUpTime totalRequests →
      q = stepDurationQ startC endC step rampUpTime) ∧
    stepDurationQ 10 100 10 9000 = 1000 ∧
    executeRampUpPattern 10 100 10 9000 600 =
      [Event.dispatch 0 10 10, Event.sleep (stepDurationQ 10 100 10 9000),
        Event.dispatch 10 20 20, Event.sleep (stepDurationQ 10 100 10 9000),
        Event.dispatch 30 30 30, Event.sleep (stepDurationQ 10 100 10 9000),
        Event.dispatch 60 40 40, Event.sleep (stepDurationQ 10 100 10 9000),
        Event.dispatch 100 50 50, Event.sleep (stepDurationQ 10 100 10 9000),
        Event.dispatch 150 60 60, Event.sleep (stepDurationQ 10 100 10 9000),
        Event.dispatch 210 70 70, Event.sleep (stepDurationQ 10 100 10 9000),
        Event.dispatch 280 80 80, Event.sleep (stepDurationQ 10 100 10 9000),
        Event.dispatch 360 90 90, Event.sleep (stepDurationQ 10 100 10 9000),
        Event.dispatch 450 100 100,
        Event.dispatch 550 50 100] := by
  refine ⟨?_, ?_, ?_, ?_, ?_⟩
  · rw [← traceIndices_length envOK, executeRampUpPattern,
      rampUpLoop_indices envOK totalRequests endC step _ (totalRequests + 1) startC 0
        h1 h2 (by omega)]
    simp
  · intro s c k h
    exact rampUpLoop_dispatch_mem _ _ _ _ _ _ _ _ _ _ h
  · intro q h
    exact rampUpLoop_sleep_eq _ _ _ _ _ _ _ _ h
  · norm_num [stepDurationQ]
  · rfl

theorem C3_witness :
    (1 : ℕ) ≤ 10 ∧ (10 : ℕ) ≤ 100 ∧
    dispatchTotal (executeRampUpPattern 10 100 10 9000 600) = 600 :=
  ⟨by decide, by decide, (C3_rampup_amended 10 100 10 9000 600 (by decide) (by decide)).1⟩

/-! ## C9: semaphore permit bound and FIFO hand-off -/

/-- One semaphore step preserves the permit-accounting invariant. -/
theorem semStep_preserves (C : ℕ) (s t : SemState) (hstep : SemStep s t)
    (hsum : s.holding.length + s.permits = max 1 C)
    (hq : s.waitQueue ≠ [] → s.permits = 0) :
    t.holding.length + t.permits = max 1 C ∧
      (t.waitQueue ≠ [] → t.permits = 0) := by
  cases hstep with
  | acquireImmediate c hp =>
    refine ⟨by simp; omega, fun hne => ?_⟩
    have := hq hne
    omega
  | acquireWait c hp =>
    exact ⟨by simpa using hsum, fun _ => hp⟩
  | releaseEmpty c hc hq' =>
    have herase := List.length_erase_of_mem hc
    have hpos : 0 < s.holding.length := List.length_pos_of_mem hc
    refine ⟨?_, fun hne => absurd rfl hne⟩
    simp only [herase]
    omega
  | releaseHandoff c d rest hc hq' =>
    have herase := List.length_erase_of_mem hc
    have hpos : 0 < s.holding.length := List.length_pos_of_mem hc
    have hzero : s.permits = 0 := hq (by simp [hq'])
    refine ⟨?_, fun _ => by simp [hzero]⟩
    simp only [List.length_cons, herase]
    omega

/-- Reachable-state invariant of the semaphore: held permits and free
permits always sum to `max 1 C`, and a non-empty wait queue implies no free
permit. -/
theorem semInvariant (C : ℕ) :
    ∀ s, SemReachable C s →
      s.holding.length + s.permits = max 1 C ∧
        (s.waitQueue ≠ [] → s.permits = 0) := by
  intro s h
  induction h with
  | refl => simp [initSem]
  | tail _ hstep ih => exact semStep_preserves C _ _ hstep ih.1 ih.2

/-- **C9.** From a freshly constructed semaphore, no reachable state has
more than `max(1, C)` callers holding permits simultaneously (so for
`C ≥ 1`, never more than `C` concurrently unresolved Executor calls), and
every step either leaves the wait queue unchanged, enqueues one caller at
the tail, or dequeues exactly the *head* (longest-waiting) caller, which
immediately becomes a holder — the freed permit is never handed to a
later-queued caller. -/
theorem C9_semaphore_bound_fifo :
    (∀ (C : ℕ) (s : SemState), SemReachable C s → s.holding.length ≤ max 1 C) ∧
    (∀ (C : ℕ) (s : SemState), 1 ≤ C → SemReachable C s → s.holding.length ≤ C) ∧
    (∀ s t : SemState, SemStep s t →
      t.waitQueue = s.waitQueue ∨
      (∃ c, t.waitQueue = s.waitQueue ++ [c]) ∨
      (∃ d rest, s.waitQueue = d :: rest ∧ t.waitQueue = rest ∧
        ∃ h', t.holding = d :: h')) := by
  have hbound : ∀ (C : ℕ) (s : SemState), SemReachable C s →
      s.holding.length ≤ max 1 C := by
    intro C s h
    have := (semInvariant C s h).1
    omega
  refine ⟨hbound, fun C s hC h => ?_, fun s t hstep => ?_⟩
  · have := hbound C s h
    omega
  · cases hstep with
    | acquireImmediate c hp => exact Or.inl rfl
    | acquireWait c hp => exact Or.inr (Or.inl ⟨c, rfl⟩)
    | releaseEmpty c hc hq => exact Or.inl (by simp [hq])
    | releaseHandoff c d rest hc hq =>
      exact Or.inr (Or.inr ⟨d, rest, hq, rfl, _, rfl⟩)

theorem C9_witness :
    (initSem 2).holding.length ≤ max 1 2 ∧
    (semAfterAcquire.waitQueue = (initSem 2).waitQueue ∨
      (∃ c, semAfterAcquire.waitQueue = (initSem 2).waitQueue ++ [c]) ∨
      (∃ d rest, (initSem 2).waitQueue = d :: rest ∧
        semAfterAcquire.waitQueue = rest ∧
        ∃ h', semAfterAcquire.holding = d :: h')) :=
  ⟨C9_semaphore_bound_fifo.1 2 (initSem 2) Relation.ReflTransGen.refl,
    C9_semaphore_bound_fifo.2.2 (initSem 2) semAfterAcquire
      (SemStep.acquireImmediate (initSem 2) 5 (by decide))⟩

/-! ## C1: every pattern covers indices 0..totalRequests-1 exactly -/

/-- **C1.** For every transport, every valid config and every pattern, the
`index` fields of the completed run log are exactly `0,…,totalRequests−1` in
order — no duplicate, no gap. -/
theorem C1_indices_exact (env : Transport) (concurrency totalRequests : ℕ)
    (delay : ℤ) (startC endC step rampUpTime : ℕ)
    (hc : 1 ≤ concurrency) (ht : 1 ≤ totalRequests)
    (hs : 1 ≤ startC) (hlt : startC < endC) :
    traceIndices env (executeBurstPattern concurrency totalRequests) =
      List.range totalRequests ∧
    traceIndices env (executeSustainedPattern concurrency totalRequests delay) =
      List.range totalRequests ∧
    traceIndices env (executeRampUpPattern startC endC step rampUpTime totalRequests) =
      List.range totalRequests ∧
    traceIndices env (executeWavePattern concurrency totalRequests) =
      List.range totalRequests ∧
    traceIndices env (executeSpikePattern concurrency totalRequests) =
      List.range totalRequests := by
  have hb : 1 ≤ min concurrency totalRequests := by omega
  refine ⟨?_, ?_, ?_, ?_, ?_⟩
  · simp [executeBurstPattern, List.range_eq_range']
  · unfold executeSustainedPattern
    show traceIndices env ((List.range ((totalRequests + min concurrency totalRequests - 1) /
        min concurrency totalRequests)).flatMap fun batch =>
        Event.dispatch (batch * min concurrency totalRequests)
          (min (min concurrency totalRequests)
            (totalRequests - batch * min concurrency totalRequests)) concurrency ::
          (if delay ≠ 0 ∧ batch < (totalRequests + min concurrency totalRequests - 1) /
              min concurrency totalRequests - 1
            then [Event.sleep (delay : ℚ)] else [])) = List.range totalRequests
    rw [traceIndices_flatMap]
    have hbatch : (fun x => traceIndices env
        (Event.dispatch (x * min concurrency totalRequests)
          (min (min concurrency totalRequests)
            (totalRequests - x * min concurrency totalRequests)) concurrency ::
          (if delay ≠ 0 ∧ x < (totalRequests + min concurrency totalRequests - 1) /
              min concurrency totalRequests - 1
            then [Event.sleep (delay : ℚ)] else [])))
        = fun k => List.range' (0 + k * min concurrency totalRequests)
            (min (min concurrency totalRequests)
              (totalRequests - k * min concurrency totalRequests)) := by
      funext k
      rw [traceIndices_cons, results_dispatch]
      have hnil : traceIndices env
          (if delay ≠ 0 ∧ k < (totalRequests + min concurrency totalRequests - 1) /
              min concurrency totalRequests - 1
            then [Event.sleep (delay : ℚ)] else []) = [] := by
        split <;> rfl
      rw [hnil, List.append_nil]
      congr 1
      omega
    rw [hbatch,
      range_flatMap_batches (min concurrency totalRequests) hb totalRequests 0,
      List.range_eq_range']
  · unfold executeRampUpPattern
    rw [rampUpLoop_indices env totalRequests endC step _ (totalRequests + 1) startC 0
      hs (by omega) (by omega), Nat.sub_zero, List.range_eq_range']
  · unfold executeWavePattern
    show traceIndices env
      [Event.dispatch (0 * (totalRequests / 3)) (totalRequests / 3) concurrency,
        Event.sleep 2000,
        Event.dispatch (1 * (totalRequests / 3)) (totalRequests / 3) concurrency,
        Event.sleep 2000,
        Event.dispatch (2 * (totalRequests / 3)) (totalRequests - 2 * (totalRequests / 3))
          concurrency] = List.range totalRequests
    simp only [traceIndices_cons, traceIndices_nil, results_dispatch, results_sleep,
      List.map_nil, List.append_nil, List.nil_append, Nat.zero_mul, Nat.one_mul]
    rw [show (2 : ℕ) * (totalRequests / 3) = totalRequests / 3 + totalRequests / 3 by omega]
    have g1 := range'_glue (totalRequests / 3) (totalRequests / 3)
      (totalRequests - (totalRequests / 3 + totalRequests / 3))
    rw [g1]
    have g2 := range'_glue 0 (totalRequests / 3)
      (totalRequests / 3 + (totalRequests - (totalRequests / 3 + totalRequests / 3)))
    rw [Nat.zero_add] at g2
    rw [g2, List.range_eq_range']
    congr 1
    omega
  · unfold executeSpikePattern
    show traceIndices env
      ((if 0 < totalRequests - totalRequests * 8 / 10 then
        [Event.dispatch 0 (totalRequests - totalRequests * 8 / 10)
          (concurrency * 3 / 10)]
      else []) ++ [Event.sleep 1000] ++
        [Event.dispatch (totalRequests - totalRequests * 8 / 10)
          (totalRequests * 8 / 10) concurrency]) = List.range totalRequests
    rw [if_pos (by omega : 0 < totalRequests - totalRequests * 8 / 10)]
    simp only [traceIndices_append, traceIndices_cons, traceIndices_nil,
      results_dispatch, results_sleep, List.map_nil, List.append_nil, List.nil_append]
    have g := range'_glue 0 (totalRequests - totalRequests * 8 / 10)
      (totalRequests * 8 / 10)
    rw [Nat.zero_add] at g
    rw [g, List.range_eq_range']
    congr 1
    omega

theorem C1_witness :
    (1 : ℕ) ≤ 2 ∧ (1 : ℕ) ≤ 5 ∧ (1 : ℕ) ≤ 1 ∧ (1 : ℕ) < 3 ∧
    traceIndices envOK (executeBurstPattern 2 5) = List.range 5 ∧
    traceIndices envOK (executeSustainedPattern 2 5 0) = List.range 5 ∧
    traceIndices envOK (executeRampUpPattern 1 3 1 600 5) = List.range 5 ∧
    traceIndices envOK (executeWavePattern 2 5) = List.range 5 ∧
    traceIndices envOK (executeSpikePattern 2 5) = List.range 5 :=
  ⟨by decide, by decide, by decide, by decide,
    C1_indices_exact envOK 2 5 0 1 3 1 600 (by decide) (by decide) (by decide) (by decide)⟩

/-! ## C2: the spike pattern's two phases -/

/-- **C2 (counterexample).** For `concurrency = 10`, `totalRequests = 100`
the first dispatched phase has 20 requests (at `floor(10·0.3) = 3`), not the
claimed `floor(100·0.8) = 80`; the 80-request phase runs second, at full
concurrency. -/
theorem C2_counterexample :
    executeSpikePattern 10 100 =
      [Event.dispatch 0 20 3, Event.sleep 1000, Event.dispatch 20 80 10] ∧
    (20 : ℕ) ≠ 80 :=
  ⟨rfl, by decide⟩

/-- **C2 (amended).** The spike run has exactly two phases, but in the
opposite order from the claim: the first phase dispatches
`totalRequests − floor(totalRequests·0.8)` (≈20%) requests at concurrency
`floor(Config.concurrency·0.3)`, then after the fixed 1000-time-unit pause
the second phase dispatches `floor(totalRequests·0.8)` requests at full
`Config.concurrency`; for `totalRequests = 100` the first phase has 20
requests and the second has 80. -/
theorem C2_spike_amended (concurrency totalRequests : ℕ)
    (h : 1 ≤ totalRequests) :
    executeSpikePattern concurrency totalRequests =
      [Event.dispatch 0 (totalRequests - totalRequests * 8 / 10)
          (concurrency * 3 / 10),
        Event.sleep 1000,
        Event.dispatch (totalRequests - totalRequests * 8 / 10)
          (totalRequests * 8 / 10) concurrency] := by
  unfold executeSpikePattern
  show (if 0 < totalRequests - totalRequests * 8 / 10 then
      [Event.dispatch 0 (totalRequests - totalRequests * 8 / 10)
        (concurrency * 3 / 10)]
    else []) ++ [Event.sleep 1000] ++
      [Event.dispatch (totalRequests - totalRequests * 8 / 10)
        (totalRequests * 8 / 10) concurrency] = _
  rw [if_pos (by omega : 0 < totalRequests - totalRequests * 8 / 10)]
  rfl

theorem C2_witness :
    (1 : ℕ) ≤ 100 ∧
    executeSpikePattern 10 100 =
      [Event.dispatch 0 (100 - 100 * 8 / 10) (10 * 3 / 10),
        Event.sleep 1000,
        Event.dispatch (100 - 100 * 8 / 10) (100 * 8 / 10) 10] :=
  ⟨by decide, C2_spike_amended 10 100 (by decide)⟩

theorem C10_witness :
    statusXorError (makeRequest envOK 0) ∧
    ((∀ r ∈ [makeRequest envOK 0, makeRequest envRefused 1], statusXorError r) ∧
      (calculateStats [makeRequest envOK 0, makeRequest envRefused 1] 7).successfulRequests +
        (calculateStats [makeRequest envOK 0, makeRequest envRefused 1] 7).failedRequests =
        (calculateStats [makeRequest envOK 0, makeRequest envRefused 1] 7).totalRequests) :=
  ⟨C10_success_failure_partition.1 envOK 0,
    by decide,
    C10_success_failure_partition.2 _ 7 (by decide)⟩

end StressHammer
